import Mathlib

/-!
Verification development for the decode.4337 schema-resolution and
call-decoding engine.  JavaScript strings are modelled as lists of
characters (`JStr`), machine integers and JS bigints as `Int`/`Nat`,
fallible library calls as `Except`/`Option` values.  The keccak-256
primitive and the binary ABI codec are external library primitives and
are modelled as explicit function parameters.
-/

namespace Decode4337

/-- JavaScript strings, modelled as lists of characters. -/
abbrev JStr := List Char

/-- Embed a Lean string literal as a `JStr`. -/
def js (s : String) : JStr := s.data

/-- Decimal rendering of a natural number (JS `Number`/`BigInt` toString). -/
def natToJStr (n : Nat) : JStr := (Nat.repr n).data

/-- Decimal rendering of a JS bigint (`value.toString()`); negatives get a leading minus. -/
def intToJStr (n : Int) : JStr :=
  (if n < 0 then js "-" else []) ++ natToJStr n.natAbs

/-- JS string truthiness: the empty string is falsy. -/
def strTruthy (s : JStr) : Bool := !s.isEmpty

/-- Truthiness of a possibly-undefined JS string. -/
def optTruthy : Option JStr → Bool
  | some s => strTruthy s
  | none => false

/-- `s.slice(-n)`: the last `n` characters. -/
def takeRight (s : JStr) (n : Nat) : JStr := s.drop (s.length - n)

/-! ## SelectorCodec (source: part_003 `expandAbiType`, `getSelectorFromAbiItem`) -/

/-- An ABI parameter descriptor: `{ name?, type?, components? }`.
`components` is only ever read through `?? []` in the source, so a JS-absent
component list is modelled as the empty list. -/
inductive AbiParam where
  | mk (name : Option JStr) (type : Option JStr) (components : List AbiParam)

mutual

def AbiParam.beq : AbiParam → AbiParam → Bool
  | .mk n1 t1 c1, .mk n2 t2 c2 => n1 == n2 && t1 == t2 && AbiParam.beqList c1 c2

def AbiParam.beqList : List AbiParam → List AbiParam → Bool
  | [], [] => true
  | p :: ps, q :: qs => AbiParam.beq p q && AbiParam.beqList ps qs
  | _, _ => false

end

mutual

theorem AbiParam.beq_iff : ∀ p q : AbiParam, AbiParam.beq p q = true ↔ p = q
  | .mk n1 t1 c1, .mk n2 t2 c2 => by
    simp only [AbiParam.beq, Bool.and_eq_true, beq_iff_eq, AbiParam.mk.injEq]
    rw [and_assoc, AbiParam.beqList_iff c1 c2]

theorem AbiParam.beqList_iff : ∀ ps qs : List AbiParam,
    AbiParam.beqList ps qs = true ↔ ps = qs
  | [], [] => by simp [AbiParam.beqList]
  | [], _ :: _ => by simp [AbiParam.beqList]
  | _ :: _, [] => by simp [AbiParam.beqList]
  | p :: ps, q :: qs => by
    simp only [AbiParam.beqList, Bool.and_eq_true, List.cons.injEq]
    rw [AbiParam.beq_iff p q, AbiParam.beqList_iff ps qs]

end

instance : DecidableEq AbiParam := fun p q =>
  decidable_of_iff _ (AbiParam.beq_iff p q)

def AbiParam.name : AbiParam → Option JStr
  | .mk n _ _ => n

def AbiParam.type : AbiParam → Option JStr
  | .mk _ t _ => t

def AbiParam.components : AbiParam → List AbiParam
  | .mk _ _ c => c

/-- `list.join(',')`. -/
def joinComma (xs : List JStr) : JStr := List.intercalate (js ",") xs

mutual

/-- part_003 lines 116-125: expand an ABI type to canonical form for the
selector; a `tuple...` type becomes the parenthesized comma-joined expansion
of its components followed by the array suffix (`t.replace('tuple','')`,
which under the `startsWith('tuple')` guard is `t.drop 5`). -/
def expandAbiType (p : AbiParam) : JStr :=
  match p with
  | .mk _ t comps =>
    let ty := t.getD []
    if (js "tuple").isPrefixOf ty then
      js "(" ++ joinComma (expandAbiTypeList comps) ++ js ")" ++ ty.drop 5
    else ty

/-- `comps.map(expandAbiType)`. -/
def expandAbiTypeList : List AbiParam → List JStr
  | [] => []
  | p :: ps => expandAbiType p :: expandAbiTypeList ps

end

/-- An ABI item as it appears in the tables and artifact files. -/
structure AbiItem where
  type : Option JStr
  name : Option JStr
  inputs : Option (List AbiParam)
  outputs : Option (List AbiParam)
  stateMutability : Option JStr
deriving DecidableEq

/-- The canonical signature string `name(expandedTypes)` of an ABI item
(part_003 lines 129-131; a JS-undefined name would render as `undefined`). -/
def abiItemSignature (item : AbiItem) : JStr :=
  item.name.getD (js "undefined") ++ js "(" ++
    joinComma (expandAbiTypeList (item.inputs.getD [])) ++ js ")"

/-- part_003 lines 127-133: the selector is the first 10 characters
(`0x` plus 8 hex digits, i.e. the first 4 bytes) of the keccak-256 hash of
the canonical signature.  `keccak` is the library hash primitive, returning
the `0x`-prefixed hex rendering of the hash. -/
def getSelectorFromAbiItem (keccak : JStr → JStr) (item : AbiItem) : JStr :=
  (keccak (abiItemSignature item)).take 10

/-! ## The fallback table (source: part_003 lines 6-104) -/

/-- A named elementary parameter `{ name, type }`. -/
def param (name ty : String) : AbiParam := .mk (some (js name)) (some (js ty)) []

/-- A fallback-table function item (all fallback items carry `outputs: []`
and `stateMutability: 'nonpayable'`). -/
def fnItem (name : String) (inputs : List AbiParam) : AbiItem :=
  { type := some (js "function"), name := some (js name), inputs := some inputs,
    outputs := some [], stateMutability := some (js "nonpayable") }

def ERC20_ABI : List AbiItem :=
  [ fnItem "transfer" [param "to" "address", param "amount" "uint256"],
    fnItem "transferFrom"
      [param "from" "address", param "to" "address", param "amount" "uint256"],
    fnItem "approve" [param "spender" "address", param "amount" "uint256"] ]

def SIMPLE_ACCOUNT_EXECUTE_ABI : List AbiItem :=
  [ fnItem "execute"
      [param "dest" "address", param "value" "uint256", param "func" "bytes"],
    fnItem "executeBatch"
      [param "dest" "address[]", param "value" "uint256[]", param "func" "bytes[]"] ]

def COMMON_DEPLOY_ABI : List AbiItem :=
  [ fnItem "deploy" [param "initCode" "bytes"] ]

def KAMI_MINT_ABI : List AbiItem :=
  [ fnItem "mintFor"
      [param "recipient" "address", param "tokenPrice" "uint256", param "uri" "string",
       AbiParam.mk (some (js "mintRoyalties")) (some (js "tuple[]"))
         [param "receiver" "address", param "feeNumerator" "uint96"]] ]

def FALLBACK_ABI : List AbiItem :=
  SIMPLE_ACCOUNT_EXECUTE_ABI ++ ERC20_ABI ++ COMMON_DEPLOY_ABI ++ KAMI_MINT_ABI

/-! ## SchemaRegistry (source: part_003 `loadMergedAbiFromArtifacts`, `getMergedAbi`) -/

/-- A parsed schema-source file (part_003 `ArtifactJson`); the nested
`bytecode.object` / `deployedBytecode.object` hex strings are collapsed to
one optional field each. -/
structure ArtifactJson where
  abi : Option (List AbiItem)
  methodIdentifiers : Option (List (JStr × JStr))
  bytecode : Option JStr
  deployedBytecode : Option JStr

/-- One schema-source file: the contract name derived from its path
(part_003 line 245), and the parse result — `none` when reading or
JSON-parsing fails, which the source catches and skips. -/
structure ArtifactFile where
  name : JStr
  parsed : Option ArtifactJson

/-- The state of the schema-source directory. -/
structure FsState where
  dirExists : Bool
  files : List ArtifactFile

/-- The `seen` map: selector-keyed, insertion-ordered (a JS `Map`). -/
abbrev Seen := List (JStr × AbiItem)

def seenHas (m : Seen) (k : JStr) : Bool := m.any (fun kv => kv.1 == k)

/-- `if (seen.has(selector)) ...; seen.set(selector, v)` for a fresh key
appends in insertion order; an existing key is skipped by every caller. -/
def seenInsert (m : Seen) (k : JStr) (v : AbiItem) : Seen :=
  if seenHas m k then m else m ++ [(k, v)]

/-- part_003 lines 166-171 (`addItem`): seed a fallback item, skipping
non-functions, unnamed items, and already-present selectors. -/
def addItem (keccak : JStr → JStr) (m : Seen) (item : AbiItem) : Seen :=
  if item.type == some (js "function") && optTruthy item.name then
    seenInsert m (getSelectorFromAbiItem keccak item)
      { item with type := some (js "function") }
  else m

/-- JS object lookup on a string-keyed record (keys unique in JSON). -/
def recLookup (m : List (JStr × JStr)) (k : JStr) : Option JStr :=
  (m.find? (fun kv => kv.1 == k)).map (fun kv => kv.2)

/-- part_003 lines 184-201: insert one discovered function item.  A matching
explicit method identifier (truthy, so a non-empty hex string) takes
precedence over the computed selector; the computed signature string equals
`abiItemSignature` (the name is truthy under the guard). -/
def addArtifactItem (keccak : JStr → JStr) (methodIds : List (JStr × JStr))
    (m : Seen) (item : AbiItem) : Seen :=
  if item.type == some (js "function") && optTruthy item.name then
    let selectorFromIds :=
      match recLookup methodIds (abiItemSignature item) with
      | some idHex => if strTruthy idHex then some (js "0x" ++ idHex) else none
      | none => none
    let selector := selectorFromIds.getD (getSelectorFromAbiItem keccak item)
    seenInsert m selector
      { type := some (js "function"), name := item.name,
        inputs := some (item.inputs.getD []), outputs := some (item.outputs.getD []),
        stateMutability := some (item.stateMutability.getD (js "nonpayable")) }
  else m

/-- The per-file item loop of part_003 lines 177-205. -/
def processArtifact (keccak : JStr → JStr) (m : Seen) (art : ArtifactJson) : Seen :=
  (art.abi.getD []).foldl (addArtifactItem keccak (art.methodIdentifiers.getD [])) m

/-- part_003 lines 157-208: seed the seen map with every fallback entry,
then extend it with every discovered function whose selector is fresh;
return the values in insertion order.  A missing directory returns the
fallback list itself. -/
def loadMergedAbiFromArtifacts (keccak : JStr → JStr) (fs : FsState) : List AbiItem :=
  if fs.dirExists then
    let seeded := FALLBACK_ABI.foldl (addItem keccak) []
    let final := fs.files.foldl
      (fun m f => match f.parsed with
        | none => m
        | some art => processArtifact keccak m art) seeded
    final.map (fun kv => kv.2)
  else FALLBACK_ABI

def countFunctions (abi : List AbiItem) : Nat :=
  (abi.filter (fun x => x.type == some (js "function"))).length

def FALLBACK_FUNCTION_COUNT : Nat := countFunctions FALLBACK_ABI

/-- part_003 lines 319-327: rebuild the merge, cache it only when it has
strictly more functions than the fallback alone, and return the cache when
set, else the fresh build.  The process-wide `cachedAbi` cell is passed and
returned explicitly. -/
def getMergedAbi (keccak : JStr → JStr) (fs : FsState)
    (cache : Option (List AbiItem)) : List AbiItem × Option (List AbiItem) :=
  let loaded := loadMergedAbiFromArtifacts keccak fs
  let cache2 := if countFunctions loaded > FALLBACK_FUNCTION_COUNT then some loaded else cache
  (cache2.getD loaded, cache2)

/-- A sequence of `getMergedAbi` calls, each against its own directory
state, threading the process-wide cache; returns the per-call results. -/
def runGetMergedAbi (keccak : JStr → JStr) :
    List FsState → Option (List AbiItem) → List (List AbiItem) × Option (List AbiItem)
  | [], cache => ([], cache)
  | fs :: rest, cache =>
    let step := getMergedAbi keccak fs cache
    let tail := runGetMergedAbi keccak rest step.2
    (step.1 :: tail.1, tail.2)

/-- part_003 lines 330-332. -/
def getFallbackAbi : List AbiItem := FALLBACK_ABI

/-! ## BytecodeSignatureStore and ContractIdentifier (source: part_003 lines 228-313) -/

/-- Bytecode signature length in hex characters (128 bytes). -/
def BYTECODE_SIGNATURE_LEN : Nat := 256

/-- Short runtime prefix length in hex characters (32 bytes). -/
def BYTECODE_SHORT_PREFIX_LEN : Nat := 64

/-- Substring-search window in hex characters (8 KB). -/
def SEARCH_RANGE_HEX : Nat := 16384

structure BytecodeSig where
  name : JStr
  prefixHex : JStr
  shortPrefixHex : JStr
deriving DecidableEq

/-- Strip a leading `0x`. -/
def strip0x (s : JStr) : JStr := if (js "0x").isPrefixOf s then s.drop 2 else s

/-- part_003 lines 241-270: the signatures contributed by one file — one
from sufficiently long creation bytecode, one from sufficiently long
runtime bytecode (empty strings are falsy and skipped). -/
def sigsOfFile (f : ArtifactFile) : List BytecodeSig :=
  match f.parsed with
  | none => []
  | some art =>
    let fromCreation :=
      match art.bytecode with
      | some bc =>
        if strTruthy bc then
          let hex := strip0x bc
          if hex.length ≥ BYTECODE_SIGNATURE_LEN then
            [⟨f.name, hex.take BYTECODE_SIGNATURE_LEN, hex.take BYTECODE_SHORT_PREFIX_LEN⟩]
          else []
        else []
      | none => []
    let fromRuntime :=
      match art.deployedBytecode with
      | some rt =>
        if strTruthy rt then
          let hex := strip0x rt
          if hex.length ≥ BYTECODE_SHORT_PREFIX_LEN then
            [⟨f.name,
              if hex.length ≥ BYTECODE_SIGNATURE_LEN then hex.take BYTECODE_SIGNATURE_LEN
              else hex.take BYTECODE_SHORT_PREFIX_LEN,
              hex.take BYTECODE_SHORT_PREFIX_LEN⟩]
          else []
        else []
      | none => []
    fromCreation ++ fromRuntime

/-- part_003 lines 237-277, without the process-lifetime cache cell (the
cache only memoizes this pure function of the directory state). -/
def loadBytecodeSignatures (files : List ArtifactFile) : List BytecodeSig :=
  files.foldl (fun acc f => acc ++ sigsOfFile f) []

/-- The fixed candidate offsets in hex characters (part_003 line 289):
direct; after a 20-byte factory; factory + length word; factory + ABI
offset + length word. -/
def INIT_CODE_OFFSETS : List Nat := [0, 40, 104, 168]

/-- The offset-shifted candidate slices (an offset beyond the input is
dropped; offset 0 keeps the input itself). -/
def icCandidates (raw : JStr) : List JStr :=
  (INIT_CODE_OFFSETS.filter (fun off => raw.length > off)).map (fun off => raw.drop off)

/-- The bounded leading search window (first `SEARCH_RANGE_HEX` chars). -/
def icWindow (s : JStr) : JStr :=
  if s.length > SEARCH_RANGE_HEX then s.take SEARCH_RANGE_HEX else s

/-- JS `hay.includes(needle)`. -/
def isSubstring (needle hay : JStr) : Bool := decide (needle <:+: hay)

/-- Pass 1 (part_003 lines 294-299): exact creation-code prefix match at
each candidate offset; candidates shorter than the signature length are
skipped; the outer loop is over candidates, the inner over signatures. -/
def icPass1 (sigs : List BytecodeSig) (raw : JStr) : Option JStr :=
  (icCandidates raw).findSome? (fun c =>
    if c.length < BYTECODE_SIGNATURE_LEN then none
    else sigs.findSome? (fun s =>
      if s.prefixHex.isPrefixOf c then some s.name else none))

/-- Pass 2 (part_003 lines 300-304): substring search for a short prefix
in the bounded leading window of the raw input. -/
def icPass2 (sigs : List BytecodeSig) (raw : JStr) : Option JStr :=
  sigs.findSome? (fun s =>
    if isSubstring s.shortPrefixHex (icWindow raw) then some s.name else none)

/-- Pass 3 (part_003 lines 305-311): the same substring search within each
candidate slice. -/
def icPass3 (sigs : List BytecodeSig) (raw : JStr) : Option JStr :=
  (icCandidates raw).findSome? (fun c =>
    sigs.findSome? (fun s =>
      if isSubstring s.shortPrefixHex (icWindow c) then some s.name else none))

/-- part_003 lines 284-313: identify a contract from creation bytecode.
An input shorter than the short-prefix length yields no match; otherwise
the three passes run in order and the first hit wins; no hit is `none`. -/
def getContractNameFromInitCode (sigs : List BytecodeSig) (initCode : JStr) : Option JStr :=
  if (strip0x initCode).length < BYTECODE_SHORT_PREFIX_LEN then none
  else
    match icPass1 sigs (strip0x initCode) with
    | some n => some n
    | none =>
      match icPass2 sigs (strip0x initCode) with
      | some n => some n
      | none => icPass3 sigs (strip0x initCode)

/-! ## Argument formatting (source: part_001 `formatArg`) -/

/-- A decoded JS argument value: null, undefined, booleans, bigints,
strings, arrays, and plain objects (ordered field lists). -/
inductive JsValue where
  | nullV
  | undef
  | bool (b : Bool)
  | bigint (n : Int)
  | str (s : JStr)
  | arr (elems : List JsValue)
  | obj (fields : List (JStr × JsValue))

/-- `list.join(', ')`. -/
def joinCommaSpace (xs : List JStr) : JStr := List.intercalate (js ", ") xs

/-- JS `(len - 2) / 2` under Number division, rendered: an odd byte-length
hex string prints a trailing `.5`. -/
def jsHalfRepr (n : Nat) : JStr :=
  if n % 2 == 0 then natToJStr (n / 2) else natToJStr (n / 2) ++ js ".5"

mutual

/-- part_001 lines 131-153: recursive human formatting of a decoded
argument.  A `0x`-prefixed string longer than 74 chars is truncated to its
first 12 chars, an ellipsis, its last 4 chars, and the byte count; other
strings, bigints and booleans render in full; arrays are bracketed and
comma-joined; objects render as `key: value` pairs, recursively. -/
def formatArg : JsValue → JStr
  | .nullV => js "null"
  | .undef => js "undefined"
  | .bool b => if b then js "true" else js "false"
  | .bigint n => intToJStr n
  | .str s =>
    if (js "0x").isPrefixOf s then
      if s.length > 74 then
        s.take 12 ++ js "..." ++ takeRight s 4 ++
          js " (" ++ jsHalfRepr (s.length - 2) ++ js " bytes)"
      else s
    else s
  | .arr xs => js "[" ++ joinCommaSpace (formatArgList xs) ++ js "]"
  | .obj fields => js "\x7b" ++ joinCommaSpace (formatArgFields fields) ++ js "\x7d"

def formatArgList : List JsValue → List JStr
  | [] => []
  | v :: vs => formatArg v :: formatArgList vs

def formatArgFields : List (JStr × JsValue) → List JStr
  | [] => []
  | (k, v) :: kvs => (k ++ js ": " ++ formatArg v) :: formatArgFields kvs

end

/-! ## CallDecoder (source: part_001 `decodeWithAbi`, `decodeToCallSummary`) -/

/-- The result of the library primitive `decodeFunctionData`. -/
structure DecodedData where
  functionName : JStr
  args : JsValue

/-- A JS string-record assignment `m[k] = v`: an existing key keeps its
insertion position and is overwritten, a fresh key is appended. -/
def recSet (m : List (JStr × JStr)) (k v : JStr) : List (JStr × JStr) :=
  if m.any (fun kv => kv.1 == k) then
    m.map (fun kv => if kv.1 == k then (k, v) else kv)
  else m ++ [(k, v)]

/-- JS record read `m[k]` (`undefined` when absent). -/
def recGet (m : List (JStr × JStr)) (k : JStr) : Option JStr :=
  (m.find? (fun kv => kv.1 == k)).map (fun kv => kv.2)

/-- part_001 lines 211-214: positional arguments named after the matched
descriptor's declared parameter names, with `arg<i>` placeholders. -/
def buildPositional (inputs : List AbiParam) (xs : List JsValue) : List (JStr × JStr) :=
  (List.range xs.length).foldl
    (fun m i =>
      let name := ((inputs[i]?).bind AbiParam.name).getD (js "arg" ++ natToJStr i)
      recSet m name (formatArg ((xs[i]?).getD .undef))) []

/-- The outcome of one decode attempt: a decoded call (function name,
named argument map, optional resolved contract kind) or a typed failure
carrying the codec error message. -/
inductive DecodeOutcome where
  | ok (function : JStr) (args : List (JStr × JStr)) (contractKind : Option JStr)
  | err (error : JStr)

def DecodeOutcome.contractKindOf : DecodeOutcome → Option JStr
  | .ok _ _ ck => ck
  | .err _ => none

/-- part_001 lines 196-240: decode a payload against one table.  The codec
primitive `decodeFn` models `decodeFunctionData` (its `.error` is the
thrown codec error); every failure is caught and returned as `.err` with
that message.  When the decoded function is `deploy`, the first argument
(or the `initCode` field), if a string, is resolved through
`getContractNameFromInitCode` against the signature store `sigs`. -/
def decodeWithAbi (sigs : List BytecodeSig)
    (decodeFn : List AbiItem → JStr → Except JStr DecodedData)
    (abi : List AbiItem) (data : JStr) : DecodeOutcome :=
  match decodeFn abi data with
  | .error e => .err e
  | .ok decoded =>
    let argsRecord :=
      match decoded.args with
      | .arr xs =>
        let fn := abi.find? (fun x =>
          x.type == some (js "function") && x.name == some decoded.functionName)
        buildPositional ((fn.bind AbiItem.inputs).getD []) xs
      | .obj fields => fields.foldl (fun m kv => recSet m kv.1 (formatArg kv.2)) []
      | _ => []
    let contractKind :=
      if decoded.functionName == js "deploy" then
        let rawInitCode :=
          match decoded.args with
          | .arr xs => xs[0]?
          | .obj fields =>
            (fields.find? (fun (kv : JStr × JsValue) => kv.1 == js "initCode")).map
              (fun (kv : JStr × JsValue) => kv.2)
          | _ => none
        match rawInitCode with
        | some (.str s) => getContractNameFromInitCode sigs s
        | _ => none
      else none
    .ok decoded.functionName argsRecord contractKind

/-- A successful `decodeToCallSummary` result (part_001 lines 246-252). -/
structure DTCSResult where
  function : JStr
  args : List (JStr × JStr)
  abiSource : JStr
  abiFunctionCount : Nat
  contractKind : Option JStr
deriving DecidableEq

/-- part_001 lines 242-273: try the merged table first; only on failure
retry the fallback table; when both fail return no decode and report the
fallback attempt's error (the `onDecodeError` callback, modelled as the
second component).  The unused `_target` parameter is omitted. -/
def decodeToCallSummary (sigs : List BytecodeSig)
    (decodeFn : List AbiItem → JStr → Except JStr DecodedData)
    (merged fallback : List AbiItem) (data : JStr) :
    Option DTCSResult × Option JStr :=
  match decodeWithAbi sigs decodeFn merged data with
  | .ok f a ck => (some ⟨f, a, js "merged", countFunctions merged, ck⟩, none)
  | .err _ =>
    match decodeWithAbi sigs decodeFn fallback data with
    | .ok f a ck => (some ⟨f, a, js "fallback", countFunctions fallback, ck⟩, none)
    | .err e => (none, some e)

/-! ## Token amount formatting (source: part_001 lines 49-100) -/

structure TokenInfo where
  symbol : JStr
  decimals : Nat

/-- part_001 lines 49-52: the known-token table (keys lowercase). -/
def KNOWN_TOKENS : List (JStr × TokenInfo) :=
  [ (js "0x833589fcd6edb6e08f4c7c32d4f71b54bda02913", ⟨js "USDC", 6⟩),
    (js "0x4200000000000000000000000000000000000006", ⟨js "WETH", 18⟩) ]

def jsToLower (s : JStr) : JStr := s.map Char.toLower

/-- The library primitive `viem.formatUnits`, modelled from its published
implementation: render the value in decimal, left-pad with zeros to at
least `decimals` digits, split into integer and fraction parts, trim
trailing zeros from the fraction, and append `.fraction` only when a
nonzero fraction remains (so whole amounts carry no decimal point). -/
def formatUnits (value : Int) (decimals : Nat) : JStr :=
  let digits := natToJStr value.natAbs
  let display := List.replicate (decimals - digits.length) '0' ++ digits
  let integer := display.take (display.length - decimals)
  let fraction := display.drop (display.length - decimals)
  let fraction2 := (fraction.reverse.dropWhile (fun c => c == '0')).reverse
  (if value < 0 then js "-" else []) ++
    (if integer.isEmpty then js "0" else integer) ++
    (if fraction2.isEmpty then [] else js "." ++ fraction2)

/-- part_001 lines 93-100: scale through the known-token table, else render
the raw integer with an unknown-token marker. -/
def formatTokenAmount (token : JStr) (rawAmount : Int) : JStr :=
  match (KNOWN_TOKENS.find? (fun kv => kv.1 == jsToLower token)).map
      (fun kv => kv.2) with
  | some info => formatUnits rawAmount info.decimals ++ js " " ++ info.symbol
  | none => intToJStr rawAmount ++ js " (unknown token)"

/-! ## JS BigInt parsing (library primitive `BigInt(string)`) -/

def decDigit? (c : Char) : Option Nat :=
  if c.isDigit then some (c.toNat - '0'.toNat) else none

def hexDigit? (c : Char) : Option Nat :=
  if c.isDigit then some (c.toNat - '0'.toNat)
  else if 'a' ≤ c ∧ c ≤ 'f' then some (c.toNat - 'a'.toNat + 10)
  else if 'A' ≤ c ∧ c ≤ 'F' then some (c.toNat - 'A'.toNat + 10)
  else none

def digitsVal? (base : Nat) (digit? : Char → Option Nat) (l : JStr) : Option Nat :=
  l.foldl
    (fun acc c =>
      match acc, digit? c with
      | some a, some d => some (a * base + d)
      | _, _ => none)
    (some 0)

/-- JS `BigInt(string)` on the string forms reaching it here: the empty
string is 0, `0x`/`0X` starts a hex literal, an optional single leading
minus precedes decimal digits; any other form throws (`none`). -/
def jsBigInt (s : JStr) : Option Int :=
  if s.isEmpty then some 0
  else if (js "0x").isPrefixOf s || (js "0X").isPrefixOf s then
    if (s.drop 2).isEmpty then none
    else (digitsVal? 16 hexDigit? (s.drop 2)).map Int.ofNat
  else
    match s with
    | '-' :: rest =>
      if rest.isEmpty then none
      else (digitsVal? 10 decDigit? rest).map (fun n => -(n : Int))
    | _ => (digitsVal? 10 decDigit? s).map Int.ofNat

/-! ## TransactionAnalyzer, handleOps branch (source: part_001 lines 275-519) -/

/-- part_001 lines 162-169. -/
def displayFunctionForCall (fn : JStr) (contractKind : Option JStr) : JStr :=
  if fn == js "deploy" then
    match contractKind with
    | some k => js "deploy (" ++ k ++ js ")"
    | none => fn
  else fn

/-- The unknown-call placeholder: selector prefix plus marker. -/
def unknownCallLabel (func : JStr) : JStr := func.take 10 ++ js "... (unknown)"

/-- `if (s && s !== '0x')`. -/
def hasData (s : JStr) : Bool := strTruthy s && s != js "0x"

def isTransferName (fn : JStr) : Bool := fn == js "transfer" || fn == js "transferFrom"

structure CallSummary where
  function : JStr
  target : JStr
  args : List (JStr × JStr)
deriving DecidableEq

/-- The transfer summary; `fromAddr` models the `from` field, which is
JS-undefined when a transferFrom decode lacks a `from` argument. -/
structure TransferSummary where
  amount : JStr
  fromAddr : Option JStr
  beneficiary : JStr
deriving DecidableEq

/-- A bundled user operation; only the fields the decode logic reads are
kept (the gas fields and initCode are display-only pass-through). -/
structure UserOp where
  sender : JStr
  callData : JStr

/-- The result of `decodeFunctionData` against the smart-account
execute/executeBatch table (part_001 lines 28-47); any other payload makes
the codec throw. -/
inductive InnerDecoded where
  | execute (dest : JStr) (value : Int) (func : JStr)
  | executeBatch (dests : List JStr) (values : List Int) (funcs : List JStr)
deriving DecidableEq

/-- The ambient collaborators of one `decodeTransaction` run: the signature
store, the codec primitive for table decodes, the codec primitive for the
smart-account execute table, and the two schema tables in effect. -/
structure AnalyzerEnv where
  sigs : List BytecodeSig
  decodeFn : List AbiItem → JStr → Except JStr DecodedData
  decodeExec : JStr → Except JStr InnerDecoded
  merged : List AbiItem
  fallback : List AbiItem

def AnalyzerEnv.dtcs (env : AnalyzerEnv) (data : JStr) :
    Option DTCSResult × Option JStr :=
  decodeToCallSummary env.sigs env.decodeFn env.merged env.fallback data

/-- The accumulating analyzer state: the decoded calls and the summary. -/
abbrev AnalyzerState := List CallSummary × Option TransferSummary

/-- part_001 lines 370-429: the handleOps `execute` branch for one user
operation.  The summary assignment at line 412 is unguarded
(`summary = ...`), so a transfer-shaped call here overwrites an earlier
summary.  A `BigInt` parse failure throws to the per-op catch; the
`.error` carries the state at the throw point (calls already pushed). -/
def processExecInner (env : AnalyzerEnv) (beneficiary opSender dest func : JStr)
    (st : AnalyzerState) : Except AnalyzerState AnalyzerState :=
  if hasData func then
    match (env.dtcs func).1 with
    | some d =>
      let calls2 := st.1 ++
        [⟨displayFunctionForCall d.function d.contractKind, dest, d.args⟩]
      if isTransferName d.function then
        let toA := recGet d.args (js "to")
        let amount := recGet d.args (js "amount")
        let fromA :=
          if d.function == js "transferFrom" then recGet d.args (js "from")
          else some opSender
        if optTruthy toA && optTruthy amount then
          match jsBigInt (amount.getD []) with
          | some n => .ok (calls2, some ⟨formatTokenAmount dest n, fromA, beneficiary⟩)
          | none => .error (calls2, st.2)
        else .ok (calls2, st.2)
      else .ok (calls2, st.2)
    | none => .ok (st.1 ++ [⟨unknownCallLabel func, dest, []⟩], st.2)
  else .ok st

/-- part_001 lines 439-494: one executeBatch element inside handleOps.  In
contrast to the execute branch, the summary assignment is guarded by
`!summary &&` (line 464), so the first transfer-shaped element wins. -/
def processBatchElem (env : AnalyzerEnv) (beneficiary opSender dest : JStr)
    (funcO : Option JStr) (st : AnalyzerState) :
    Except AnalyzerState AnalyzerState :=
  match funcO with
  | none => .ok st
  | some func =>
    if hasData func then
      match (env.dtcs func).1 with
      | some d =>
        let calls2 := st.1 ++
          [⟨displayFunctionForCall d.function d.contractKind, dest, d.args⟩]
        if !(st.2).isSome && isTransferName d.function then
          let toA := recGet d.args (js "to")
          let amount := recGet d.args (js "amount")
          let fromA :=
            if d.function == js "transferFrom" then recGet d.args (js "from")
            else some opSender
          if optTruthy toA && optTruthy amount then
            match jsBigInt (amount.getD []) with
            | some n =>
              .ok (calls2, some ⟨formatTokenAmount dest n, fromA, beneficiary⟩)
            | none => .error (calls2, st.2)
          else .ok (calls2, st.2)
        else .ok (calls2, st.2)
      | none => .ok (st.1 ++ [⟨unknownCallLabel func, dest, []⟩], st.2)
    else .ok st

/-- The `for (let j = 0; j < dests.length; j++)` loop; `funcs[j]` may be
JS-undefined when the arrays disagree in length. -/
def processBatchList (env : AnalyzerEnv) (beneficiary opSender : JStr)
    (dests funcs : List JStr) (st : AnalyzerState) :
    Except AnalyzerState AnalyzerState :=
  (List.range dests.length).foldlM
    (fun acc j =>
      processBatchElem env beneficiary opSender ((dests[j]?).getD []) (funcs[j]?) acc)
    st

/-- part_001 lines 354-502: process one user operation.  The whole body is
wrapped in a try/catch, so a codec throw on the callData, or a BigInt
throw later, leaves the state accumulated so far and moves on. -/
def processOp (env : AnalyzerEnv) (beneficiary : JStr) (st : AnalyzerState)
    (op : UserOp) : AnalyzerState :=
  if hasData op.callData then
    match env.decodeExec op.callData with
    | .error _ => st
    | .ok (.execute dest _value func) =>
      match processExecInner env beneficiary op.sender dest func st with
      | .ok st2 => st2
      | .error st2 => st2
    | .ok (.executeBatch dests _values funcs) =>
      match processBatchList env beneficiary op.sender dests funcs st with
      | .ok st2 => st2
      | .error st2 => st2
  else st

/-- part_001 lines 337-502: the handleOps loop over the bundled user
operations, accumulating decoded calls and at most one transfer summary. -/
def processHandleOps (env : AnalyzerEnv) (ops : List UserOp)
    (beneficiary : JStr) : AnalyzerState :=
  ops.foldl (processOp env beneficiary) ([], none)

/-! ## Spec-side canonical signatures (refinement target for claim C2) -/

/-- Modelled from the spec (§4.1): a well-formed parameter type is an
elementary type tag, or a tuple carrying an array suffix (such as `[]`)
and an ordered list of component types. -/
inductive AbiType where
  | base (t : JStr)
  | tuple (comps : List AbiType) (suffix : JStr)

mutual

/-- Spec-side canonical rendering: a tuple expands recursively to its
parenthesized, comma-separated component list with the array suffix
preserved; an elementary type renders as its tag. -/
def canonicalType : AbiType → JStr
  | .base t => t
  | .tuple comps suffix =>
    js "(" ++ joinComma (canonicalTypeList comps) ++ js ")" ++ suffix

def canonicalTypeList : List AbiType → List JStr
  | [] => []
  | T :: Ts => canonicalType T :: canonicalTypeList Ts

end

/-- Spec-side canonical signature of a function descriptor. -/
def canonicalSignature (name : JStr) (Ts : List AbiType) : JStr :=
  name ++ js "(" ++ joinComma (canonicalTypeList Ts) ++ js ")"

mutual

/-- A source parameter descriptor denotes a spec-side type: either its tag
is an elementary type not beginning with `tuple`, or its tag is `tuple`
followed by the array suffix and its components denote the tuple
components in order. -/
def ParamDenotes : AbiParam → AbiType → Prop
  | p, .base t => p.type = some t ∧ ¬ (js "tuple") <+: t
  | p, .tuple comps suffix =>
    p.type = some (js "tuple" ++ suffix) ∧ ParamsDenote p.components comps

def ParamsDenote : List AbiParam → List AbiType → Prop
  | [], [] => True
  | p :: ps, T :: Ts => ParamDenotes p T ∧ ParamsDenote ps Ts
  | _, _ => False

end

mutual

theorem expandAbiType_canonical : ∀ (p : AbiParam) (T : AbiType),
    ParamDenotes p T → expandAbiType p = canonicalType T
  | .mk n ty comps, .base t, h => by
    obtain ⟨ht, hnp⟩ := h
    simp only [AbiParam.type] at ht
    subst ht
    simp [expandAbiType, canonicalType, hnp]
  | .mk n ty comps, .tuple Ts suffix, h => by
    obtain ⟨ht, hcomp⟩ := h
    simp only [AbiParam.type, AbiParam.components] at ht hcomp
    subst ht
    have hlist := expandAbiTypeList_canonical comps Ts hcomp
    have hdrop : (js "tuple" ++ suffix).drop 5 = suffix := List.drop_left' rfl
    simp [expandAbiType, canonicalType, hlist, hdrop]

theorem expandAbiTypeList_canonical : ∀ (ps : List AbiParam) (Ts : List AbiType),
    ParamsDenote ps Ts → expandAbiTypeList ps = canonicalTypeList Ts
  | [], [], _ => rfl
  | p :: ps, T :: Ts, h => by
    obtain ⟨h1, h2⟩ := h
    simp only [expandAbiTypeList, canonicalTypeList,
      expandAbiType_canonical p T h1, expandAbiTypeList_canonical ps Ts h2]
  | [], _ :: _, h => h.elim
  | _ :: _, [], h => h.elim

end

/-- C2: for every well-formed function descriptor (a named item whose
parameters denote spec-side types), the source selector computation equals
the first 4 bytes (the first 10 characters of the `0x`-prefixed hex hash)
of the keccak-256 hash of the spec-side canonical signature, in which
tuple types are recursively expanded into their parenthesized component
lists with array suffixes preserved; in particular the array-of-structs
parameter of `mintFor` expands to `(address,uint96)[]`.  The computation
is a total Lean function, hence pure and total on well-formed
descriptors. -/
theorem c2_selector_canonical (keccak : JStr → JStr) (item : AbiItem)
    (name : JStr) (params : List AbiParam) (Ts : List AbiType)
    (hname : item.name = some name) (hinputs : item.inputs = some params)
    (hwf : ParamsDenote params Ts) :
    getSelectorFromAbiItem keccak item = (keccak (canonicalSignature name Ts)).take 10 ∧
    expandAbiType (AbiParam.mk (some (js "mintRoyalties")) (some (js "tuple[]"))
      [param "receiver" "address", param "feeNumerator" "uint96"]) =
      js "(address,uint96)[]" := by
  constructor
  · have hlist := expandAbiTypeList_canonical params Ts hwf
    simp [getSelectorFromAbiItem, abiItemSignature, canonicalSignature,
      hname, hinputs, hlist]
  · decide

/-- Witness for C2 at the concrete `mintFor` descriptor, with the literal
hash function. -/
theorem c2_selector_canonical_witness :
    ParamsDenote
      [param "recipient" "address", param "tokenPrice" "uint256", param "uri" "string",
       AbiParam.mk (some (js "mintRoyalties")) (some (js "tuple[]"))
         [param "receiver" "address", param "feeNumerator" "uint96"]]
      [AbiType.base (js "address"), AbiType.base (js "uint256"), AbiType.base (js "string"),
       AbiType.tuple [AbiType.base (js "address"), AbiType.base (js "uint96")] (js "[]")] ∧
    getSelectorFromAbiItem (fun s => s)
        (fnItem "mintFor"
          [param "recipient" "address", param "tokenPrice" "uint256", param "uri" "string",
           AbiParam.mk (some (js "mintRoyalties")) (some (js "tuple[]"))
             [param "receiver" "address", param "feeNumerator" "uint96"]]) =
      ((fun s => s)
          (canonicalSignature (js "mintFor")
            [AbiType.base (js "address"), AbiType.base (js "uint256"),
             AbiType.base (js "string"),
             AbiType.tuple [AbiType.base (js "address"), AbiType.base (js "uint96")]
               (js "[]")])).take 10 := by
  have hwf : ParamsDenote
      [param "recipient" "address", param "tokenPrice" "uint256", param "uri" "string",
       AbiParam.mk (some (js "mintRoyalties")) (some (js "tuple[]"))
         [param "receiver" "address", param "feeNumerator" "uint96"]]
      [AbiType.base (js "address"), AbiType.base (js "uint256"), AbiType.base (js "string"),
       AbiType.tuple [AbiType.base (js "address"), AbiType.base (js "uint96")]
         (js "[]")] := by
    refine ⟨⟨rfl, ?_⟩, ⟨rfl, ?_⟩, ⟨rfl, ?_⟩,
      ⟨rfl, ⟨rfl, ?_⟩, ⟨rfl, ?_⟩, trivial⟩, trivial⟩ <;> decide
  exact ⟨hwf, (c2_selector_canonical (fun s => s) _ _ _ _ rfl rfl hwf).1⟩

/-! ## Claim C10: argument formatting -/

theorem natToJStr_length_le (n : Nat) (hn : 0 < n) : (natToJStr n).length ≤ n := by
  have h := Nat.repr_length n n hn (Nat.lt_pow_self (by norm_num) n)
  have he : (Nat.repr n).length = (natToJStr n).length := rfl
  omega

theorem jsHalfRepr_length_le (n : Nat) (hn : 2 ≤ n) :
    (jsHalfRepr n).length ≤ n / 2 + 2 := by
  have h2 : 0 < n / 2 := Nat.div_pos hn (by norm_num)
  have hle := natToJStr_length_le (n / 2) h2
  unfold jsHalfRepr
  split
  · omega
  · rw [List.length_append]
    have hdot : (js ".5").length = 2 := rfl
    omega

theorem formatArgList_eq_map (xs : List JsValue) :
    formatArgList xs = xs.map formatArg := by
  induction xs with
  | nil => rfl
  | cons v vs ih => simp [formatArgList, ih]

theorem formatArgFields_eq_map (fields : List (JStr × JsValue)) :
    formatArgFields fields =
      fields.map (fun kv => kv.1 ++ js ": " ++ formatArg kv.2) := by
  induction fields with
  | nil => rfl
  | cons kv kvs ih =>
    cases kv
    simp [formatArgFields, ih]

theorem formatArg_long_hex (s : JStr) (hpre : (js "0x").isPrefixOf s)
    (hlong : 74 < s.length) :
    formatArg (.str s) =
      s.take 12 ++ js "..." ++ takeRight s 4 ++
        js " (" ++ jsHalfRepr (s.length - 2) ++ js " bytes)" := by
  simp [formatArg, hpre, hlong]

theorem formatArg_long_hex_ne (s : JStr) (hpre : (js "0x").isPrefixOf s)
    (hlong : 74 < s.length) : formatArg (.str s) ≠ s := by
  intro heq
  rw [formatArg_long_hex s hpre hlong] at heq
  have hlen := congrArg List.length heq
  simp only [List.length_append, List.length_take, takeRight, List.length_drop] at hlen
  have h1 : (js "...").length = 3 := rfl
  have h2 : (js " (").length = 2 := rfl
  have h3 : (js " bytes)").length = 7 := rfl
  have h4 : (jsHalfRepr (s.length - 2)).length ≤ (s.length - 2) / 2 + 2 :=
    jsHalfRepr_length_le _ (by omega)
  omega

/-- C10: a decoded `0x`-prefixed hex string longer than 74 characters is
placed in the argument map truncated — first 12 characters, an ellipsis,
the last 4 characters, and the byte count in parentheses — and differs
from the full value; shorter hex strings render as themselves, bigints in
full decimal, arrays bracketed and comma-joined over recursively formatted
elements, and records as recursively formatted `key: value` pairs. -/
theorem c10_formatArg (s : JStr) (n : Int) (xs : List JsValue)
    (fields : List (JStr × JsValue))
    (hpre : (js "0x").isPrefixOf s) (hlong : 74 < s.length) :
    (formatArg (.str s) =
        s.take 12 ++ js "..." ++ takeRight s 4 ++
          js " (" ++ jsHalfRepr (s.length - 2) ++ js " bytes)" ∧
      formatArg (.str s) ≠ s) ∧
    (∀ s2 : JStr, (js "0x").isPrefixOf s2 → s2.length ≤ 74 → formatArg (.str s2) = s2) ∧
    formatArg (.bigint n) = intToJStr n ∧
    formatArg (.arr xs) = js "[" ++ joinCommaSpace (xs.map formatArg) ++ js "]" ∧
    formatArg (.obj fields) =
      js "\x7b" ++
        joinCommaSpace (fields.map (fun kv => kv.1 ++ js ": " ++ formatArg kv.2)) ++
        js "\x7d" := by
  refine ⟨⟨formatArg_long_hex s hpre hlong, formatArg_long_hex_ne s hpre hlong⟩,
    ?_, rfl, ?_, ?_⟩
  · intro s2 hp hle
    have hnot : ¬ (74 < s2.length) := by omega
    simp [formatArg, hp, hnot]
  · simp [formatArg, formatArgList_eq_map]
  · simp [formatArg, formatArgFields_eq_map]

/-- A concrete 38-byte hex string (76 characters). -/
def c10s : JStr := js "0x" ++ List.replicate 74 'a'

/-- Witness for C10 at a concrete 76-character hex string. -/
theorem c10_formatArg_witness :
    ((js "0x").isPrefixOf c10s) = true ∧ 74 < c10s.length ∧
      formatArg (.str c10s) ≠ c10s :=
  ⟨by decide, by decide,
    ((c10_formatArg c10s (-5) [] [] (by decide) (by decide)).1).2⟩

/-! ## Claim C6: CallDecoder totality -/

/-- C6: for every table and payload, `decodeWithAbi` returns either a
decoded call or a typed failure carrying exactly the codec error message;
no codec failure escapes the boundary. -/
theorem c6_decodeWithAbi_total (sigs : List BytecodeSig)
    (decodeFn : List AbiItem → JStr → Except JStr DecodedData)
    (abi : List AbiItem) (data : JStr) :
    (∃ f args ck, decodeWithAbi sigs decodeFn abi data = .ok f args ck) ∨
    (∃ msg, decodeWithAbi sigs decodeFn abi data = .err msg ∧
      decodeFn abi data = .error msg) := by
  unfold decodeWithAbi
  cases h : decodeFn abi data with
  | error e => exact .inr ⟨e, rfl, rfl⟩
  | ok d => exact .inl ⟨_, _, _, rfl⟩

/-! ## Claim C5: two-table fallback policy -/

/-- C5: decoding is attempted against the merged table first; the fallback
table is consulted exactly when the merged attempt fails; a merged success
is returned as-is, a fallback success is returned on merged failure, and a
double failure yields an absent decode carrying the fallback attempt's
error message through the error callback. -/
theorem c5_two_table_policy (sigs : List BytecodeSig)
    (decodeFn : List AbiItem → JStr → Except JStr DecodedData)
    (merged fallback : List AbiItem) (data : JStr) :
    (∀ f args ck, decodeWithAbi sigs decodeFn merged data = .ok f args ck →
      decodeToCallSummary sigs decodeFn merged fallback data =
        (some ⟨f, args, js "merged", countFunctions merged, ck⟩, none)) ∧
    (∀ e f args ck, decodeWithAbi sigs decodeFn merged data = .err e →
      decodeWithAbi sigs decodeFn fallback data = .ok f args ck →
      decodeToCallSummary sigs decodeFn merged fallback data =
        (some ⟨f, args, js "fallback", countFunctions fallback, ck⟩, none)) ∧
    (∀ e1 e2, decodeWithAbi sigs decodeFn merged data = .err e1 →
      decodeWithAbi sigs decodeFn fallback data = .err e2 →
      decodeToCallSummary sigs decodeFn merged fallback data = (none, some e2)) := by
  refine ⟨?_, ?_, ?_⟩
  · intro f args ck h
    simp [decodeToCallSummary, h]
  · intro e f args ck h1 h2
    simp [decodeToCallSummary, h1, h2]
  · intro e1 e2 h1 h2
    simp [decodeToCallSummary, h1, h2]

/-- A codec that fails on everything, for the C5 witness. -/
def c5failFn : List AbiItem → JStr → Except JStr DecodedData :=
  fun _ _ => .error (js "unknown selector")

/-- Witness for C5: with a codec that fails on both tables, the result is
the absent decode carrying the fallback attempt's error. -/
theorem c5_two_table_policy_witness :
    decodeWithAbi [] c5failFn FALLBACK_ABI (js "0xdead") = .err (js "unknown selector") ∧
    decodeToCallSummary [] c5failFn FALLBACK_ABI FALLBACK_ABI (js "0xdead") =
      (none, some (js "unknown selector")) :=
  ⟨rfl, (c5_two_table_policy [] c5failFn FALLBACK_ABI FALLBACK_ABI (js "0xdead")).2.2
    (js "unknown selector") (js "unknown selector") rfl rfl⟩

/-! ## Claims C7 and C8: contract identification -/

/-- No registered signature occurs in the input: no creation-code prefix
starts any candidate slice, and no short prefix occurs as a substring of
the bounded leading window of the input or of any candidate slice. -/
def NoSigMatch (sigs : List BytecodeSig) (raw : JStr) : Prop :=
  (∀ s ∈ sigs, ∀ c ∈ icCandidates raw, ¬ s.prefixHex <+: c) ∧
  (∀ s ∈ sigs, ¬ s.shortPrefixHex <:+: icWindow raw) ∧
  (∀ s ∈ sigs, ∀ c ∈ icCandidates raw, ¬ s.shortPrefixHex <:+: icWindow c)

instance (sigs : List BytecodeSig) (raw : JStr) : Decidable (NoSigMatch sigs raw) := by
  unfold NoSigMatch
  infer_instance

theorem icPass1_eq_none (sigs : List BytecodeSig) (raw : JStr)
    (h : ∀ s ∈ sigs, ∀ c ∈ icCandidates raw, ¬ s.prefixHex <+: c) :
    icPass1 sigs raw = none := by
  unfold icPass1
  rw [List.findSome?_eq_none_iff]
  intro c hc
  split
  · rfl
  · rw [List.findSome?_eq_none_iff]
    intro s hs
    simp [List.isPrefixOf_iff_prefix, h s hs c hc]

theorem icPass2_eq_none (sigs : List BytecodeSig) (raw : JStr)
    (h : ∀ s ∈ sigs, ¬ s.shortPrefixHex <:+: icWindow raw) :
    icPass2 sigs raw = none := by
  unfold icPass2
  rw [List.findSome?_eq_none_iff]
  intro s hs
  simp [isSubstring, h s hs]

theorem icPass3_eq_none (sigs : List BytecodeSig) (raw : JStr)
    (h : ∀ s ∈ sigs, ∀ c ∈ icCandidates raw, ¬ s.shortPrefixHex <:+: icWindow c) :
    icPass3 sigs raw = none := by
  unfold icPass3
  rw [List.findSome?_eq_none_iff]
  intro c hc
  rw [List.findSome?_eq_none_iff]
  intro s hs
  simp [isSubstring, h s hs c hc]

theorem getContractName_eq_none_of_noMatch (sigs : List BytecodeSig)
    (initCode : JStr) (h : NoSigMatch sigs (strip0x initCode)) :
    getContractNameFromInitCode sigs initCode = none := by
  obtain ⟨h1, h2, h3⟩ := h
  unfold getContractNameFromInitCode
  split
  · rfl
  · rw [icPass1_eq_none _ _ h1, icPass2_eq_none _ _ h2, icPass3_eq_none _ _ h3]

/-- C7: an input whose raw hex is shorter than the short-prefix length
(64 hex characters; boundary 63) yields no match, and an input in which no
registered signature's creation-code prefix starts any candidate slice and
no short prefix occurs as a substring of the bounded windows yields an
absent result — never an error or a name. -/
theorem c7_identifier_absent (sigs : List BytecodeSig) (initCode : JStr) :
    ((strip0x initCode).length < BYTECODE_SHORT_PREFIX_LEN →
      getContractNameFromInitCode sigs initCode = none) ∧
    (NoSigMatch sigs (strip0x initCode) →
      getContractNameFromInitCode sigs initCode = none) := by
  constructor
  · intro hshort
    unfold getContractNameFromInitCode
    simp [hshort]
  · exact getContractName_eq_none_of_noMatch sigs initCode

/-- A registered signature for the C7/C8 witnesses. -/
def cidSig : BytecodeSig :=
  ⟨js "Kami", List.replicate 256 'a', List.replicate 64 'a'⟩

/-- A 63-character input: exactly the short-prefix boundary minus one. -/
def c7short : JStr := List.replicate 63 'b'

/-- A 100-character input containing no registered prefix anywhere. -/
def c7nomatch : JStr := js "0x" ++ List.replicate 100 'b'

set_option maxRecDepth 100000 in
/-- Witness for C7: the boundary-length input and a prefix-free input both
yield an absent result against a nonempty signature store. -/
theorem c7_identifier_absent_witness :
    (strip0x c7short).length < BYTECODE_SHORT_PREFIX_LEN ∧
    getContractNameFromInitCode [cidSig] c7short = none ∧
    NoSigMatch [cidSig] (strip0x c7nomatch) ∧
    getContractNameFromInitCode [cidSig] c7nomatch = none :=
  ⟨by decide,
   (c7_identifier_absent [cidSig] c7short).1 (by decide),
   by decide,
   (c7_identifier_absent [cidSig] c7nomatch).2 (by decide)⟩

theorem decodeWithAbi_deploy_contractKind (sigs : List BytecodeSig)
    (decodeFn : List AbiItem → JStr → Except JStr DecodedData)
    (abi : List AbiItem) (data initCode : JStr) (restArgs : List JsValue)
    (hdec : decodeFn abi data = .ok ⟨js "deploy", .arr (.str initCode :: restArgs)⟩) :
    (decodeWithAbi sigs decodeFn abi data).contractKindOf =
      getContractNameFromInitCode sigs initCode := by
  unfold decodeWithAbi
  rw [hdec]
  simp [DecodeOutcome.contractKindOf]

theorem icCandidates_of_long (raw : JStr) (h : 168 < raw.length) :
    icCandidates raw = [raw, raw.drop 40, raw.drop 104, raw.drop 168] := by
  unfold icCandidates INIT_CODE_OFFSETS
  have h0 : decide (raw.length > 0) = true := decide_eq_true (by omega)
  have h40 : decide (raw.length > 40) = true := decide_eq_true (by omega)
  have h104 : decide (raw.length > 104) = true := decide_eq_true (by omega)
  have h168 : decide (raw.length > 168) = true := decide_eq_true (by omega)
  simp [List.filter, h0, h40, h104, h168]

theorem getContractName_factory_prefix (sig : BytecodeSig) (factory rest : JStr)
    (hsig : sig.prefixHex.length = BYTECODE_SIGNATURE_LEN)
    (hfac : factory.length = 40) :
    getContractNameFromInitCode [sig]
        (js "0x" ++ (factory ++ (sig.prefixHex ++ rest))) = some sig.name := by
  have hB : BYTECODE_SIGNATURE_LEN = 256 := rfl
  have hsig2 : sig.prefixHex.length = 256 := by rw [hsig, hB]
  have hraw : strip0x (js "0x" ++ (factory ++ (sig.prefixHex ++ rest))) =
      factory ++ (sig.prefixHex ++ rest) := by
    have hc : (js "0x").isPrefixOf (js "0x" ++ (factory ++ (sig.prefixHex ++ rest))) = true := by
      simp [List.isPrefixOf_iff_prefix]
    unfold strip0x
    rw [hc]
    simp only [if_true]
    exact List.drop_left' (by rfl)
  have hlen : (factory ++ (sig.prefixHex ++ rest)).length = 296 + rest.length := by
    simp [List.length_append, hfac, hsig2]
    omega
  have hcand := icCandidates_of_long (factory ++ (sig.prefixHex ++ rest)) (by omega)
  have hdrop40 : (factory ++ (sig.prefixHex ++ rest)).drop 40 =
      sig.prefixHex ++ rest := by
    rw [← hfac]
    exact List.drop_left factory (sig.prefixHex ++ rest)
  have hc0 : ¬ (factory.length + (sig.prefixHex.length + rest.length) <
      BYTECODE_SIGNATURE_LEN) := by
    rw [hB]
    omega
  have hc40 : ¬ (sig.prefixHex.length + rest.length < BYTECODE_SIGNATURE_LEN) := by
    rw [hB]
    omega
  have hpass1 : icPass1 [sig] (factory ++ (sig.prefixHex ++ rest)) = some sig.name := by
    unfold icPass1
    rw [hcand]
    by_cases hp : sig.prefixHex <+: (factory ++ (sig.prefixHex ++ rest))
    · simp [List.findSome?_cons, hc0, hp]
    · simp [List.findSome?_cons, hc0, hp, hdrop40, hc40]
  have hshort : ¬ (factory.length + (sig.prefixHex.length + rest.length) <
      BYTECODE_SHORT_PREFIX_LEN) := by
    have hS : BYTECODE_SHORT_PREFIX_LEN = 64 := rfl
    rw [hS]
    omega
  unfold getContractNameFromInitCode
  rw [hraw]
  simp [hshort, hpass1]

/-- C8: for a decoded `deploy(bytes initCode)` call, an initCode that is a
20-byte factory address followed by the known contract's 128-byte
creation-code prefix resolves the decoded call's contract kind to that
contract's registered name (found by the offset-exact pass at the 20-byte
offset); an initCode matching no signature in any of the three passes
leaves the contract kind absent. -/
theorem c8_deploy_contract_kind (sigs : List BytecodeSig)
    (decodeFn : List AbiItem → JStr → Except JStr DecodedData)
    (abi : List AbiItem) (data initCode : JStr) (restArgs : List JsValue)
    (hdec : decodeFn abi data = .ok ⟨js "deploy", .arr (.str initCode :: restArgs)⟩) :
    (∀ (sig : BytecodeSig) (factory rest : JStr),
      sigs = [sig] →
      sig.prefixHex.length = BYTECODE_SIGNATURE_LEN →
      factory.length = 40 →
      initCode = js "0x" ++ (factory ++ (sig.prefixHex ++ rest)) →
      (decodeWithAbi sigs decodeFn abi data).contractKindOf = some sig.name) ∧
    (NoSigMatch sigs (strip0x initCode) →
      (decodeWithAbi sigs decodeFn abi data).contractKindOf = none) := by
  constructor
  · intro sig factory rest hsigs hsiglen hfac hinit
    subst hsigs
    subst hinit
    rw [decodeWithAbi_deploy_contractKind _ _ _ _ _ _ hdec]
    exact getContractName_factory_prefix sig factory rest hsiglen hfac
  · intro hnm
    rw [decodeWithAbi_deploy_contractKind _ _ _ _ _ _ hdec]
    exact getContractName_eq_none_of_noMatch _ _ hnm

def c8factory : JStr := List.replicate 40 '1'

def c8init : JStr := js "0x" ++ (c8factory ++ (cidSig.prefixHex ++ []))

def c8decodeFn : List AbiItem → JStr → Except JStr DecodedData :=
  fun _ _ => .ok ⟨js "deploy", .arr [.str c8init]⟩

set_option maxRecDepth 100000 in
/-- Witness for C8 at a concrete factory-prefixed initCode. -/
theorem c8_deploy_contract_kind_witness :
    cidSig.prefixHex.length = BYTECODE_SIGNATURE_LEN ∧ c8factory.length = 40 ∧
    (decodeWithAbi [cidSig] c8decodeFn FALLBACK_ABI (js "0xdd")).contractKindOf =
      some (js "Kami") :=
  ⟨by decide, by decide,
   (c8_deploy_contract_kind [cidSig] c8decodeFn FALLBACK_ABI (js "0xdd") c8init []
      rfl).1 cidSig c8factory [] rfl (by decide) (by decide) rfl⟩

/-! ## Claim C3: the merged table is a superset of the fallback table -/

/-- The seen map after seeding with the fallback entries
(part_003 lines 173-175). -/
def fallbackSeen (keccak : JStr → JStr) : Seen :=
  FALLBACK_ABI.foldl (addItem keccak) []

/-- The per-file fold of `loadMergedAbiFromArtifacts`. -/
def mergeFiles (keccak : JStr → JStr) (files : List ArtifactFile) (m : Seen) : Seen :=
  files.foldl
    (fun m f => match f.parsed with
      | none => m
      | some art => processArtifact keccak m art) m

theorem loadMerged_eq (keccak : JStr → JStr) (fs : FsState) :
    loadMergedAbiFromArtifacts keccak fs =
      if fs.dirExists then (mergeFiles keccak fs.files (fallbackSeen keccak)).map Prod.snd
      else FALLBACK_ABI := rfl

theorem seenInsert_grows (m : Seen) (k : JStr) (v : AbiItem) :
    m <+: seenInsert m k v := by
  unfold seenInsert
  split
  · exact List.prefix_rfl
  · exact List.prefix_append m [(k, v)]

theorem addItem_grows (keccak : JStr → JStr) (m : Seen) (item : AbiItem) :
    m <+: addItem keccak m item := by
  unfold addItem
  split
  · exact seenInsert_grows _ _ _
  · exact List.prefix_rfl

theorem addArtifactItem_grows (keccak : JStr → JStr) (methodIds : List (JStr × JStr))
    (m : Seen) (item : AbiItem) : m <+: addArtifactItem keccak methodIds m item := by
  unfold addArtifactItem
  split
  · exact seenInsert_grows _ _ _
  · exact List.prefix_rfl

theorem foldl_grows {α : Type} (f : Seen → α → Seen) (hf : ∀ m a, m <+: f m a) :
    ∀ (l : List α) (m : Seen), m <+: l.foldl f m
  | [], _ => List.prefix_rfl
  | a :: l, m => (hf m a).trans (foldl_grows f hf l (f m a))

theorem processArtifact_grows (keccak : JStr → JStr) (m : Seen) (art : ArtifactJson) :
    m <+: processArtifact keccak m art :=
  foldl_grows _ (fun m it => addArtifactItem_grows keccak _ m it) _ m

theorem mergeFiles_grows (keccak : JStr → JStr) (files : List ArtifactFile) (m : Seen) :
    m <+: mergeFiles keccak files m := by
  refine foldl_grows _ (fun m f => ?_) files m
  cases h : f.parsed with
  | none => exact List.prefix_rfl
  | some art => exact processArtifact_grows keccak m art

/-- Every stored descriptor in the seen map is function-typed. -/
def SeenFns (m : Seen) : Prop := ∀ kv ∈ m, (kv : JStr × AbiItem).2.type = some (js "function")

theorem seenInsert_fns (m : Seen) (k : JStr) (v : AbiItem) (hm : SeenFns m)
    (hv : v.type = some (js "function")) : SeenFns (seenInsert m k v) := by
  unfold seenInsert
  split
  · exact hm
  · intro kv hkv
    rcases List.mem_append.mp hkv with h | h
    · exact hm kv h
    · simp only [List.mem_singleton] at h
      rw [h]
      exact hv

theorem addItem_fns (keccak : JStr → JStr) (m : Seen) (item : AbiItem)
    (hm : SeenFns m) : SeenFns (addItem keccak m item) := by
  unfold addItem
  split
  · exact seenInsert_fns _ _ _ hm rfl
  · exact hm

theorem addArtifactItem_fns (keccak : JStr → JStr) (methodIds : List (JStr × JStr))
    (m : Seen) (item : AbiItem) (hm : SeenFns m) :
    SeenFns (addArtifactItem keccak methodIds m item) := by
  unfold addArtifactItem
  split
  · exact seenInsert_fns _ _ _ hm rfl
  · exact hm

theorem foldl_fns {α : Type} (f : Seen → α → Seen)
    (hf : ∀ m a, SeenFns m → SeenFns (f m a)) :
    ∀ (l : List α) (m : Seen), SeenFns m → SeenFns (l.foldl f m)
  | [], _, hm => hm
  | a :: l, m, hm => foldl_fns f hf l (f m a) (hf m a hm)

theorem mergeFiles_fns (keccak : JStr → JStr) (files : List ArtifactFile) (m : Seen)
    (hm : SeenFns m) : SeenFns (mergeFiles keccak files m) := by
  refine foldl_fns _ (fun m f hm2 => ?_) files m hm
  cases h : f.parsed with
  | none => exact hm2
  | some art =>
    exact foldl_fns _ (fun m2 it hm3 => addArtifactItem_fns keccak _ m2 it hm3) _ m hm2

theorem countFunctions_eq_length (abi : List AbiItem)
    (h : ∀ it ∈ abi, it.type = some (js "function")) :
    countFunctions abi = abi.length := by
  unfold countFunctions
  rw [List.filter_eq_self.mpr]
  intro a ha
  simp [h a ha]

theorem seenHas_iff (m : Seen) (k : JStr) :
    seenHas m k = true ↔ k ∈ m.map Prod.fst := by
  unfold seenHas
  rw [List.any_eq_true]
  constructor
  · rintro ⟨kv, hkv, hb⟩
    have he : kv.1 = k := by simpa using hb
    exact he ▸ List.mem_map_of_mem Prod.fst hkv
  · intro h
    rcases List.mem_map.mp h with ⟨kv, hkv, he⟩
    exact ⟨kv, hkv, by simpa using he⟩

theorem foldl_addItem_fresh (keccak : JStr → JStr) (items : List AbiItem) :
    ∀ (m : Seen),
    (∀ it ∈ items, it.type = some (js "function") ∧ optTruthy it.name = true) →
    (items.map (getSelectorFromAbiItem keccak)).Nodup →
    (∀ it ∈ items, getSelectorFromAbiItem keccak it ∉ m.map Prod.fst) →
    items.foldl (addItem keccak) m =
      m ++ items.map (fun it => (getSelectorFromAbiItem keccak it,
        { it with type := some (js "function") })) := by
  induction items with
  | nil => intro m _ _ _; simp
  | cons it items ih =>
    intro m hty hnd hfresh
    have h1 := hty it (by simp)
    have hcond : ((it.type == some (js "function")) && optTruthy it.name) = true := by
      simp [h1.1, h1.2]
    have hsel : ¬ seenHas m (getSelectorFromAbiItem keccak it) = true := by
      rw [seenHas_iff]
      exact hfresh it (by simp)
    have hstep : addItem keccak m it =
        m ++ [(getSelectorFromAbiItem keccak it,
          { it with type := some (js "function") })] := by
      unfold addItem seenInsert
      simp [hcond, hsel]
    have hty2 : ∀ it2 ∈ items, it2.type = some (js "function") ∧ optTruthy it2.name = true :=
      fun it2 h2 => hty it2 (List.mem_cons_of_mem it h2)
    have hnd' : (∀ x ∈ items,
        ¬ getSelectorFromAbiItem keccak x = getSelectorFromAbiItem keccak it) ∧
        (items.map (getSelectorFromAbiItem keccak)).Nodup := by
      simpa using hnd
    have hfresh2 : ∀ it2 ∈ items, getSelectorFromAbiItem keccak it2 ∉
        (m ++ [(getSelectorFromAbiItem keccak it,
          { it with type := some (js "function") })]).map Prod.fst := by
      intro it2 h2
      have hnm := hfresh it2 (List.mem_cons_of_mem it h2)
      simp only [List.map_append, List.mem_append]
      rintro (h | h)
      · exact hnm h
      · simp at h
        exact hnd'.1 it2 h2 h
    have hrec := ih (m ++ [(getSelectorFromAbiItem keccak it,
        { it with type := some (js "function") })]) hty2 hnd'.2 hfresh2
    rw [List.foldl_cons, hstep, hrec]
    simp

set_option maxRecDepth 100000 in
theorem fallbackSeen_eq (keccak : JStr → JStr)
    (hnd : (FALLBACK_ABI.map (getSelectorFromAbiItem keccak)).Nodup) :
    fallbackSeen keccak =
      FALLBACK_ABI.map (fun it => (getSelectorFromAbiItem keccak it,
        { it with type := some (js "function") })) := by
  unfold fallbackSeen
  rw [foldl_addItem_fresh keccak FALLBACK_ABI [] (by decide) hnd (by simp)]
  try simp

set_option maxRecDepth 100000 in
/-- Re-normalizing the fallback items is the identity (they are all
function-typed already). -/
theorem fallback_norm :
    FALLBACK_ABI.map (fun it => { it with type := some (js "function") }) =
      FALLBACK_ABI := by decide

theorem mergeFiles_all_none (keccak : JStr → JStr) (files : List ArtifactFile) :
    ∀ (m : Seen), (∀ f ∈ files, f.parsed = none) → mergeFiles keccak files m = m := by
  induction files with
  | nil => intro m _; rfl
  | cons f fsl ih =>
    intro m h
    simp only [mergeFiles, List.foldl_cons, h f (by simp)]
    exact ih m (fun f2 h2 => h f2 (List.mem_cons_of_mem f h2))

/-- C3: every fallback-table entry survives into the merged table under
its selector (fallback entries are inserted first and discovered entries
with a present selector are skipped), so the merged function count is at
least the fallback function count; a missing schema directory, or one
whose every file fails to parse, degenerates the merged table to exactly
the fallback table.  `hnd` states that the fallback selectors do not
collide, which holds for the real hash. -/
theorem c3_merged_superset (keccak : JStr → JStr) (fs : FsState)
    (hnd : (FALLBACK_ABI.map (getSelectorFromAbiItem keccak)).Nodup) :
    (∀ sel item, (sel, item) ∈ fallbackSeen keccak →
      item ∈ loadMergedAbiFromArtifacts keccak fs) ∧
    FALLBACK_FUNCTION_COUNT ≤ countFunctions (loadMergedAbiFromArtifacts keccak fs) ∧
    (fs.dirExists = false → loadMergedAbiFromArtifacts keccak fs = FALLBACK_ABI) ∧
    ((∀ f ∈ fs.files, f.parsed = none) →
      loadMergedAbiFromArtifacts keccak fs = FALLBACK_ABI) := by
  have hvals : (fallbackSeen keccak).map Prod.snd = FALLBACK_ABI := by
    rw [fallbackSeen_eq keccak hnd, List.map_map]
    exact fallback_norm
  have hlen7 : (fallbackSeen keccak).length = FALLBACK_ABI.length := by
    rw [fallbackSeen_eq keccak hnd, List.length_map]
  have hseenfns : SeenFns (fallbackSeen keccak) := by
    intro kv hkv
    rw [fallbackSeen_eq keccak hnd] at hkv
    rcases List.mem_map.mp hkv with ⟨it, _, he⟩
    rw [← he]
  have hFFC : FALLBACK_FUNCTION_COUNT = FALLBACK_ABI.length := rfl
  cases hdir : fs.dirExists with
  | false =>
    have hload : loadMergedAbiFromArtifacts keccak fs = FALLBACK_ABI := by
      rw [loadMerged_eq, hdir]
      simp
    refine ⟨?_, ?_, fun _ => hload, fun _ => hload⟩
    · intro sel item hmem
      rw [hload, ← hvals]
      exact List.mem_map_of_mem Prod.snd hmem
    · rw [hload]
      exact Nat.le_refl _
  | true =>
    have hpre := mergeFiles_grows keccak fs.files (fallbackSeen keccak)
    have hload : loadMergedAbiFromArtifacts keccak fs =
        (mergeFiles keccak fs.files (fallbackSeen keccak)).map Prod.snd := by
      rw [loadMerged_eq, hdir]
      simp
    have hfns : SeenFns (mergeFiles keccak fs.files (fallbackSeen keccak)) :=
      mergeFiles_fns keccak fs.files _ hseenfns
    refine ⟨?_, ?_, ?_, ?_⟩
    · intro sel item hmem
      rw [hload]
      exact List.mem_map_of_mem Prod.snd (hpre.sublist.subset hmem)
    · rw [hload]
      rw [countFunctions_eq_length]
      · rw [List.length_map, hFFC, ← hlen7]
        exact hpre.length_le
      · intro it hit
        rcases List.mem_map.mp hit with ⟨kv, hkv, he⟩
        rw [← he]
        exact hfns kv hkv
    · intro hfalse
      exact absurd hfalse (by simp)
    · intro hnone
      rw [hload, mergeFiles_all_none keccak fs.files _ hnone, hvals]

set_option maxRecDepth 100000 in
/-- Witness for C3: the identity hash separates the seven fallback
selectors, and a missing directory degenerates to the fallback table. -/
theorem c3_merged_superset_witness :
    (FALLBACK_ABI.map (getSelectorFromAbiItem (fun s => s))).Nodup ∧
    loadMergedAbiFromArtifacts (fun s => s) ⟨false, []⟩ = FALLBACK_ABI :=
  ⟨by decide,
   (c3_merged_superset (fun s => s) ⟨false, []⟩ (by decide)).2.2.1 rfl⟩

/-! ## Claim C4: caching policy of the merged-table accessor -/

theorem runGetMergedAbi_good (keccak : JStr → JStr) :
    ∀ (fss : List FsState) (a : List AbiItem),
    FALLBACK_FUNCTION_COUNT < countFunctions a →
    ∀ out ∈ (runGetMergedAbi keccak fss (some a)).1,
      FALLBACK_FUNCTION_COUNT < countFunctions out := by
  intro fss
  induction fss with
  | nil =>
    intro a _ out hout
    simp [runGetMergedAbi] at hout
  | cons fs fss ih =>
    intro a ha out hout
    by_cases hc : FALLBACK_FUNCTION_COUNT <
        countFunctions (loadMergedAbiFromArtifacts keccak fs)
    · have hstep : getMergedAbi keccak fs (some a) =
          (loadMergedAbiFromArtifacts keccak fs,
           some (loadMergedAbiFromArtifacts keccak fs)) := by
        unfold getMergedAbi
        simp [hc]
      simp only [runGetMergedAbi, hstep] at hout
      rcases List.mem_cons.mp hout with h1 | h1
      · rw [h1]
        exact hc
      · exact ih (loadMergedAbiFromArtifacts keccak fs) hc out h1
    · have hstep : getMergedAbi keccak fs (some a) = (a, some a) := by
        unfold getMergedAbi
        simp [hc]
      simp only [runGetMergedAbi, hstep] at hout
      rcases List.mem_cons.mp hout with h1 | h1
      · rw [h1]
        exact ha
      · exact ih a ha out h1

theorem runGetMergedAbi_static (keccak : JStr → JStr) :
    ∀ (k : Nat) (fs : FsState) (cache : Option (List AbiItem)),
    FALLBACK_FUNCTION_COUNT < countFunctions (loadMergedAbiFromArtifacts keccak fs) →
    ∀ out ∈ (runGetMergedAbi keccak (List.replicate k fs) cache).1,
      out = loadMergedAbiFromArtifacts keccak fs := by
  intro k
  induction k with
  | zero =>
    intro fs cache _ out hout
    simp [runGetMergedAbi] at hout
  | succ k ih =>
    intro fs cache h out hout
    have hstep : getMergedAbi keccak fs cache =
        (loadMergedAbiFromArtifacts keccak fs,
         some (loadMergedAbiFromArtifacts keccak fs)) := by
      unfold getMergedAbi
      simp [h]
    simp only [List.replicate_succ, runGetMergedAbi, hstep] at hout
    rcases List.mem_cons.mp hout with h1 | h1
    · exact h1
    · exact ih fs (some (loadMergedAbiFromArtifacts keccak fs)) h out h1

/-- C4 (amended): a build that does not strictly exceed the fallback-only
function count is never stored in the cache; an improving build is cached
and returned; once the cache holds an improving table, every subsequent
call returns a table whose function count strictly exceeds the fallback
count — but not necessarily at least the cached build's count, because a
later improving build replaces the cache; when the schema sources do not
change between calls, every call returns exactly the same improving
build. -/
theorem c4_cache_policy (keccak : JStr → JStr) :
    (∀ fs cache,
      countFunctions (loadMergedAbiFromArtifacts keccak fs) ≤ FALLBACK_FUNCTION_COUNT →
      (getMergedAbi keccak fs cache).2 = cache) ∧
    (∀ fs cache,
      FALLBACK_FUNCTION_COUNT < countFunctions (loadMergedAbiFromArtifacts keccak fs) →
      (getMergedAbi keccak fs cache).2 = some (loadMergedAbiFromArtifacts keccak fs) ∧
      (getMergedAbi keccak fs cache).1 = loadMergedAbiFromArtifacts keccak fs) ∧
    (∀ fss a, FALLBACK_FUNCTION_COUNT < countFunctions a →
      ∀ out ∈ (runGetMergedAbi keccak fss (some a)).1,
        FALLBACK_FUNCTION_COUNT < countFunctions out) ∧
    (∀ k fs cache,
      FALLBACK_FUNCTION_COUNT < countFunctions (loadMergedAbiFromArtifacts keccak fs) →
      ∀ out ∈ (runGetMergedAbi keccak (List.replicate k fs) cache).1,
        out = loadMergedAbiFromArtifacts keccak fs) := by
  refine ⟨?_, ?_, runGetMergedAbi_good keccak, runGetMergedAbi_static keccak⟩
  · intro fs cache hle
    have hc : ¬ (FALLBACK_FUNCTION_COUNT <
        countFunctions (loadMergedAbiFromArtifacts keccak fs)) := by omega
    unfold getMergedAbi
    simp [hc]
  · intro fs cache hgt
    unfold getMergedAbi
    simp [hgt]

/-- An artifact file carrying two extra functions. -/
def c4fsA : FsState :=
  ⟨true, [⟨js "A", some ⟨some [fnItem "foo" [], fnItem "bar" []], none, none, none⟩⟩]⟩

/-- An artifact file carrying one extra function. -/
def c4fsB : FsState :=
  ⟨true, [⟨js "B", some ⟨some [fnItem "foo" []], none, none, none⟩⟩]⟩

set_option maxRecDepth 1000000 in
/-- Counterexample to C4 as stated: the first call builds and caches a
9-function table (strictly exceeding the 7-function fallback), yet the
second call — whose rebuilt merge has 8 functions and therefore also
improves on the fallback — replaces the cache and returns a table with
fewer functions than the cached build, violating "every subsequent call
in the process returns a table with at least that many functions". -/
theorem c4_counterexample :
    FALLBACK_FUNCTION_COUNT <
      countFunctions ((((runGetMergedAbi (fun s => s) [c4fsA, c4fsB] none).1)[0]?).getD []) ∧
    countFunctions ((((runGetMergedAbi (fun s => s) [c4fsA, c4fsB] none).1)[1]?).getD []) <
      countFunctions ((((runGetMergedAbi (fun s => s) [c4fsA, c4fsB] none).1)[0]?).getD []) := by
  decide

set_option maxRecDepth 1000000 in
/-- Witness for C4: a fallback-only build (missing directory) is not
cached. -/
theorem c4_cache_policy_witness :
    countFunctions (loadMergedAbiFromArtifacts (fun s => s) ⟨false, []⟩) ≤
      FALLBACK_FUNCTION_COUNT ∧
    (getMergedAbi (fun s => s) ⟨false, []⟩ none).2 = none :=
  ⟨by decide, (c4_cache_policy (fun s => s)).1 ⟨false, []⟩ none (by decide)⟩

/-! ## Claims C1 and C9: summarization in the handleOps branch -/

instance {ε α : Type} [DecidableEq ε] [DecidableEq α] : DecidableEq (Except ε α) :=
  fun a b =>
    match a, b with
    | .ok x, .ok y => decidable_of_iff (x = y) (by simp)
    | .error x, .error y => decidable_of_iff (x = y) (by simp)
    | .ok _, .error _ => .isFalse (by simp)
    | .error _, .ok _ => .isFalse (by simp)

theorem exceptBind_ok {ε α β : Type} (x : α) (f : α → Except ε β) :
    ((Except.ok x : Except ε α) >>= f) = f x := rfl

/-- Evaluation of one user operation through the handleOps `execute`
branch when the inner call decodes as an ERC-20 `transfer` with truthy
`to` and `amount`: the call is appended and the summary is assigned
unconditionally (no `!summary` guard), with `from` defaulting to the
operation sender. -/
theorem processOp_execute_transfer (env : AnalyzerEnv) (benef : JStr)
    (st : AnalyzerState) (op : UserOp) (dest : JStr) (v : Int) (func : JStr)
    (d : DTCSResult) (toA amt : JStr) (n : Int)
    (hcd : hasData op.callData = true)
    (hde : env.decodeExec op.callData = .ok (.execute dest v func))
    (hfd : hasData func = true)
    (hdtcs : (env.dtcs func).1 = some d)
    (hfn : d.function = js "transfer")
    (hto : recGet d.args (js "to") = some toA)
    (hTo : strTruthy toA = true)
    (hamt : recGet d.args (js "amount") = some amt)
    (hAmt : strTruthy amt = true)
    (hbig : jsBigInt amt = some n) :
    processOp env benef st op =
      (st.1 ++ [⟨displayFunctionForCall d.function d.contractKind, dest, d.args⟩],
       some ⟨formatTokenAmount dest n, some op.sender, benef⟩) := by
  unfold processOp processExecInner
  simp +decide [hcd, hde, hfd, hdtcs, hfn, hto, hTo, hamt, hAmt, hbig, optTruthy]

/-- The same branch for a `transferFrom`: `from` is read from the decoded
arguments instead of the operation sender. -/
theorem processOp_execute_transferFrom (env : AnalyzerEnv) (benef : JStr)
    (st : AnalyzerState) (op : UserOp) (dest : JStr) (v : Int) (func : JStr)
    (d : DTCSResult) (toA amt : JStr) (n : Int)
    (hcd : hasData op.callData = true)
    (hde : env.decodeExec op.callData = .ok (.execute dest v func))
    (hfd : hasData func = true)
    (hdtcs : (env.dtcs func).1 = some d)
    (hfn : d.function = js "transferFrom")
    (hto : recGet d.args (js "to") = some toA)
    (hTo : strTruthy toA = true)
    (hamt : recGet d.args (js "amount") = some amt)
    (hAmt : strTruthy amt = true)
    (hbig : jsBigInt amt = some n) :
    processOp env benef st op =
      (st.1 ++ [⟨displayFunctionForCall d.function d.contractKind, dest, d.args⟩],
       some ⟨formatTokenAmount dest n, recGet d.args (js "from"), benef⟩) := by
  unfold processOp processExecInner
  simp +decide [hcd, hde, hfd, hdtcs, hfn, hto, hTo, hamt, hAmt, hbig, optTruthy]

/-- One executeBatch element when the summary is still unset and the
element decodes as a `transfer`: the guarded assignment fires. -/
theorem processBatchElem_transfer_none (env : AnalyzerEnv)
    (benef opSender dest func : JStr) (st : AnalyzerState)
    (d : DTCSResult) (toA amt : JStr) (n : Int)
    (hs : st.2 = none)
    (hfd : hasData func = true)
    (hdtcs : (env.dtcs func).1 = some d)
    (hfn : d.function = js "transfer")
    (hto : recGet d.args (js "to") = some toA)
    (hTo : strTruthy toA = true)
    (hamt : recGet d.args (js "amount") = some amt)
    (hAmt : strTruthy amt = true)
    (hbig : jsBigInt amt = some n) :
    processBatchElem env benef opSender dest (some func) st =
      .ok (st.1 ++ [⟨displayFunctionForCall d.function d.contractKind, dest, d.args⟩],
        some ⟨formatTokenAmount dest n, some opSender, benef⟩) := by
  unfold processBatchElem
  simp +decide [hs, hfd, hdtcs, hfn, hto, hTo, hamt, hAmt, hbig, optTruthy]

/-- One executeBatch element once a summary exists: the `!summary` guard
blocks any further assignment; the call is still appended. -/
theorem processBatchElem_some_summary (env : AnalyzerEnv)
    (benef opSender dest func : JStr) (st : AnalyzerState) (s : TransferSummary)
    (d : DTCSResult)
    (hs : st.2 = some s)
    (hfd : hasData func = true)
    (hdtcs : (env.dtcs func).1 = some d) :
    processBatchElem env benef opSender dest (some func) st =
      .ok (st.1 ++ [⟨displayFunctionForCall d.function d.contractKind, dest, d.args⟩],
        st.2) := by
  unfold processBatchElem
  simp +decide [hs, hfd, hdtcs]

/-- C1 (amended): at most one summary is produced, but the two multi-call
sites disagree on which transfer wins.  In the handleOps `execute` branch
the summary assignment is unguarded, so for two user operations each
performing an execute to an ERC-20 transfer the analyzer produces two
decoded calls and exactly one summary — the one of the second (last)
transfer, not the first.  Within one executeBatch operation the assignment
is guarded by `!summary`, so there the first transfer-shaped element wins
and later elements never overwrite it. -/
theorem c1_summary_last_execute_first_batch (env : AnalyzerEnv) (benef : JStr)
    (op1 op2 opB : UserOp) (dest1 dest2 : JStr) (v1 v2 : Int) (func1 func2 : JStr)
    (d1 d2 : DTCSResult) (to1 to2 amt1 amt2 : JStr) (n1 n2 : Int)
    (hcd1 : hasData op1.callData = true)
    (hde1 : env.decodeExec op1.callData = .ok (.execute dest1 v1 func1))
    (hfd1 : hasData func1 = true)
    (hdtcs1 : (env.dtcs func1).1 = some d1)
    (hfn1 : d1.function = js "transfer")
    (hto1 : recGet d1.args (js "to") = some to1)
    (hTo1 : strTruthy to1 = true)
    (hamt1 : recGet d1.args (js "amount") = some amt1)
    (hAmt1 : strTruthy amt1 = true)
    (hbig1 : jsBigInt amt1 = some n1)
    (hcd2 : hasData op2.callData = true)
    (hde2 : env.decodeExec op2.callData = .ok (.execute dest2 v2 func2))
    (hfd2 : hasData func2 = true)
    (hdtcs2 : (env.dtcs func2).1 = some d2)
    (hfn2 : d2.function = js "transfer")
    (hto2 : recGet d2.args (js "to") = some to2)
    (hTo2 : strTruthy to2 = true)
    (hamt2 : recGet d2.args (js "amount") = some amt2)
    (hAmt2 : strTruthy amt2 = true)
    (hbig2 : jsBigInt amt2 = some n2)
    (hcdB : hasData opB.callData = true)
    (hdeB : env.decodeExec opB.callData =
      .ok (.executeBatch [dest1, dest2] [v1, v2] [func1, func2])) :
    processHandleOps env [op1, op2] benef =
      ([⟨displayFunctionForCall d1.function d1.contractKind, dest1, d1.args⟩,
        ⟨displayFunctionForCall d2.function d2.contractKind, dest2, d2.args⟩],
       some ⟨formatTokenAmount dest2 n2, some op2.sender, benef⟩) ∧
    processHandleOps env [opB] benef =
      ([⟨displayFunctionForCall d1.function d1.contractKind, dest1, d1.args⟩,
        ⟨displayFunctionForCall d2.function d2.contractKind, dest2, d2.args⟩],
       some ⟨formatTokenAmount dest1 n1, some opB.sender, benef⟩) := by
  constructor
  · unfold processHandleOps
    rw [List.foldl_cons,
      processOp_execute_transfer env benef ([], none) op1 dest1 v1 func1 d1 to1 amt1 n1
        hcd1 hde1 hfd1 hdtcs1 hfn1 hto1 hTo1 hamt1 hAmt1 hbig1,
      List.foldl_cons,
      processOp_execute_transfer env benef _ op2 dest2 v2 func2 d2 to2 amt2 n2
        hcd2 hde2 hfd2 hdtcs2 hfn2 hto2 hTo2 hamt2 hAmt2 hbig2,
      List.foldl_nil]
    simp
  · have h0 := processBatchElem_transfer_none env benef opB.sender dest1 func1
      ([], none) d1 to1 amt1 n1 rfl hfd1 hdtcs1 hfn1 hto1 hTo1 hamt1 hAmt1 hbig1
    have h1 := processBatchElem_some_summary env benef opB.sender dest2 func2
      (([] : List CallSummary) ++
        [⟨displayFunctionForCall d1.function d1.contractKind, dest1, d1.args⟩],
       some ⟨formatTokenAmount dest1 n1, some opB.sender, benef⟩)
      ⟨formatTokenAmount dest1 n1, some opB.sender, benef⟩ d2 rfl hfd2 hdtcs2
    have hlist : processBatchList env benef opB.sender [dest1, dest2] [func1, func2]
        ([], none) =
        .ok ((([] : List CallSummary) ++
            [⟨displayFunctionForCall d1.function d1.contractKind, dest1, d1.args⟩]) ++
            [⟨displayFunctionForCall d2.function d2.contractKind, dest2, d2.args⟩],
          some ⟨formatTokenAmount dest1 n1, some opB.sender, benef⟩) := by
      unfold processBatchList
      have hr : List.range (List.length [dest1, dest2]) = [0, 1] := rfl
      rw [hr, List.foldlM_cons]
      simp only [List.getElem?_cons_zero, List.getElem?_cons_succ, Option.getD_some]
      rw [h0, exceptBind_ok]
      simp only [List.foldlM_cons]
      simp only [List.getElem?_cons_zero, List.getElem?_cons_succ, Option.getD_some]
      rw [h1, exceptBind_ok, List.foldlM_nil]
      rfl
    unfold processHandleOps
    rw [List.foldl_cons, List.foldl_nil]
    unfold processOp
    simp only [hcdB, if_true, hdeB]
    rw [hlist]
    simp

/-- The transfer-summary environment of the C1 counterexample: two user
operations, each an execute whose inner payload decodes as an ERC-20
transfer against the fallback table. -/
def c1env : AnalyzerEnv :=
  { sigs := []
    decodeFn := fun _ d =>
      if d == js "0xt1" then .ok ⟨js "transfer", .arr [.str (js "0xb001"), .bigint 1]⟩
      else if d == js "0xt2" then .ok ⟨js "transfer", .arr [.str (js "0xb002"), .bigint 2]⟩
      else .error (js "no match")
    decodeExec := fun d =>
      if d == js "0xc1" then .ok (.execute (js "0xd001") 0 (js "0xt1"))
      else if d == js "0xc2" then .ok (.execute (js "0xd002") 0 (js "0xt2"))
      else if d == js "0xcb" then
        .ok (.executeBatch [js "0xd001", js "0xd002"] [0, 0] [js "0xt1", js "0xt2"])
      else .error (js "not execute")
    merged := FALLBACK_ABI
    fallback := FALLBACK_ABI }

def c1op1 : UserOp := ⟨js "0xaccount1", js "0xc1"⟩

def c1op2 : UserOp := ⟨js "0xaccount2", js "0xc2"⟩

set_option maxRecDepth 1000000 in
/-- Counterexample to C1 as stated: a bundling envelope with two user
operations, each an execute to an ERC-20 transfer, produces two decoded
calls and one summary — but the summary is the second transfer's (amount
2, sender of op 2), not the first's: the first summary is overwritten. -/
theorem c1_counterexample :
    (processHandleOps c1env [c1op1, c1op2] (js "0xbenef")).1.length = 2 ∧
    (processHandleOps c1env [c1op1, c1op2] (js "0xbenef")).2 =
      some ⟨js "2 (unknown token)", some (js "0xaccount2"), js "0xbenef"⟩ ∧
    (some ⟨js "2 (unknown token)", some (js "0xaccount2"), js "0xbenef"⟩ : Option TransferSummary) ≠
      some ⟨js "1 (unknown token)", some (js "0xaccount1"), js "0xbenef"⟩ := by
  decide

set_option maxRecDepth 1000000 in
/-- Witness for the amended C1 at the concrete two-operation envelope and
the concrete single-operation batch. -/
theorem c1_summary_witness :
    hasData c1op1.callData = true ∧
    processHandleOps c1env [c1op1, c1op2] (js "0xbenef") =
      ([⟨js "transfer", js "0xd001", [(js "to", js "0xb001"), (js "amount", js "1")]⟩,
        ⟨js "transfer", js "0xd002", [(js "to", js "0xb002"), (js "amount", js "2")]⟩],
       some ⟨js "2 (unknown token)", some (js "0xaccount2"), js "0xbenef"⟩) ∧
    processHandleOps c1env [⟨js "0xaccountB", js "0xcb"⟩] (js "0xbenef") =
      ([⟨js "transfer", js "0xd001", [(js "to", js "0xb001"), (js "amount", js "1")]⟩,
        ⟨js "transfer", js "0xd002", [(js "to", js "0xb002"), (js "amount", js "2")]⟩],
       some ⟨js "1 (unknown token)", some (js "0xaccountB"), js "0xbenef"⟩) := by
  have h := c1_summary_last_execute_first_batch c1env (js "0xbenef") c1op1 c1op2
    ⟨js "0xaccountB", js "0xcb"⟩ (js "0xd001") (js "0xd002") 0 0 (js "0xt1") (js "0xt2")
    ⟨js "transfer", [(js "to", js "0xb001"), (js "amount", js "1")], js "merged",
      FALLBACK_FUNCTION_COUNT, none⟩
    ⟨js "transfer", [(js "to", js "0xb002"), (js "amount", js "2")], js "merged",
      FALLBACK_FUNCTION_COUNT, none⟩
    (js "0xb001") (js "0xb002") (js "1") (js "2") 1 2
    (by decide) (by decide) (by decide) (by decide) (by decide) (by decide) (by decide)
    (by decide) (by decide) (by decide) (by decide) (by decide) (by decide) (by decide)
    (by decide) (by decide) (by decide) (by decide) (by decide) (by decide) (by decide)
    (by decide)
  exact ⟨by decide, h.1, h.2⟩

set_option maxRecDepth 1000000 in
/-- C9 (amended): for a bundling envelope whose execute targets the known
USDC address with an inner `transferFrom(from, to, amount=1000000)`, the
summary amount renders as `1 USDC` — the raw integer scaled by the
token's 6 decimals with the trailing fractional zeros trimmed, so no
`.0` is printed — `from` equals the transferFrom `from` argument and
`beneficiary` the bundler-supplied beneficiary; for a token address
absent from the known-token table the amount renders as the raw integer
with the `(unknown token)` marker. -/
theorem c9_transfer_summary (env : AnalyzerEnv) (benef : JStr) (op : UserOp)
    (v : Int) (func : JStr) (d : DTCSResult) (fromA toA : JStr)
    (hcd : hasData op.callData = true)
    (hde : env.decodeExec op.callData =
      .ok (.execute (js "0x833589fcd6edb6e08f4c7c32d4f71b54bda02913") v func))
    (hfd : hasData func = true)
    (hdtcs : (env.dtcs func).1 = some d)
    (hfn : d.function = js "transferFrom")
    (hfrom : recGet d.args (js "from") = some fromA)
    (hto : recGet d.args (js "to") = some toA)
    (hTo : strTruthy toA = true)
    (hamt : recGet d.args (js "amount") = some (js "1000000")) :
    processHandleOps env [op] benef =
      ([⟨displayFunctionForCall d.function d.contractKind,
         js "0x833589fcd6edb6e08f4c7c32d4f71b54bda02913", d.args⟩],
       some ⟨js "1 USDC", some fromA, benef⟩) ∧
    (∀ (token : JStr) (n : Int),
      KNOWN_TOKENS.find? (fun kv => kv.1 == jsToLower token) = none →
      formatTokenAmount token n = intToJStr n ++ js " (unknown token)") := by
  constructor
  · unfold processHandleOps
    rw [List.foldl_cons,
      processOp_execute_transferFrom env benef ([], none) op
        (js "0x833589fcd6edb6e08f4c7c32d4f71b54bda02913") v func d toA
        (js "1000000") 1000000 hcd hde hfd hdtcs hfn hto hTo hamt (by decide)
        (by decide),
      List.foldl_nil]
    have hfmt : formatTokenAmount (js "0x833589fcd6edb6e08f4c7c32d4f71b54bda02913")
        1000000 = js "1 USDC" := by decide
    simp [hfmt, hfrom]
  · intro token n h
    simp [formatTokenAmount, h]

def c9from : JStr := js "0xaaaaaaaaaaaaaaaaaaaaaaaaaaaaaaaaaaaaaaaa"

def c9to : JStr := js "0xbbbbbbbbbbbbbbbbbbbbbbbbbbbbbbbbbbbbbbbb"

/-- The C9 scenario environment: one execute to the known USDC address
whose inner payload decodes as `transferFrom(from, to, 1000000)`. -/
def c9env : AnalyzerEnv :=
  { sigs := []
    decodeFn := fun _ d =>
      if d == js "0xtf" then
        .ok ⟨js "transferFrom", .arr [.str c9from, .str c9to, .bigint 1000000]⟩
      else .error (js "no match")
    decodeExec := fun d =>
      if d == js "0xcall" then
        .ok (.execute (js "0x833589fcd6edb6e08f4c7c32d4f71b54bda02913") 0 (js "0xtf"))
      else .error (js "not execute")
    merged := FALLBACK_ABI
    fallback := FALLBACK_ABI }

set_option maxRecDepth 1000000 in
/-- Counterexample to C9 as stated: on the concrete
`transferFrom(from=0xaaa…, to=0xbbb…, amount=1000000)` envelope the
produced summary amount is `1 USDC`, which differs from the claimed
`1.0 USDC` (the formatter trims the trailing fractional zeros). -/
theorem c9_counterexample :
    (processHandleOps c9env [⟨js "0xsmartacct", js "0xcall"⟩] (js "0xbenef")).2 =
      some ⟨js "1 USDC", some c9from, js "0xbenef"⟩ ∧
    js "1 USDC" ≠ js "1.0 USDC" := by
  decide

set_option maxRecDepth 1000000 in
/-- Witness for the amended C9 at the concrete envelope. -/
theorem c9_transfer_summary_witness :
    (c9env.dtcs (js "0xtf")).1 =
      some ⟨js "transferFrom",
        [(js "from", c9from), (js "to", c9to), (js "amount", js "1000000")],
        js "merged", FALLBACK_FUNCTION_COUNT, none⟩ ∧
    processHandleOps c9env [⟨js "0xsmartacct", js "0xcall"⟩] (js "0xbenef") =
      ([⟨js "transferFrom", js "0x833589fcd6edb6e08f4c7c32d4f71b54bda02913",
         [(js "from", c9from), (js "to", c9to), (js "amount", js "1000000")]⟩],
       some ⟨js "1 USDC", some c9from, js "0xbenef"⟩) := by
  have h := c9_transfer_summary c9env (js "0xbenef") ⟨js "0xsmartacct", js "0xcall"⟩
    0 (js "0xtf")
    ⟨js "transferFrom",
      [(js "from", c9from), (js "to", c9to), (js "amount", js "1000000")],
      js "merged", FALLBACK_FUNCTION_COUNT, none⟩
    c9from c9to (by decide) (by decide) (by decide) (by decide) (by decide)
    (by decide) (by decide) (by decide) (by decide)
  exact ⟨by decide, h.1⟩

end Decode4337
